import Mathlib

/-!
Shallow embedding of the EVF2 email-verification backend
(`backend/email_verifier.py` and `backend/email_finder.py`).

Python strings are modelled as `List Char`; Python floats used for the
confidence arithmetic are modelled as rationals (all constants in the
program are exact decimals, so rational arithmetic is exact where the
float computation is compared against two-decimal constants).  Network
effects (DNS resolution, SMTP sessions, the random local part of the
catch-all probe) are inputs: each network-facing step takes an oracle
function describing what the network would answer.
-/

namespace EVF2

/-- Python `str` values are sequences of characters. -/
abbrev Str := List Char

/-- Python `str.lower()` (character-wise lowering; agrees on ASCII data). -/
def pyLower (s : Str) : Str := s.map Char.toLower

/-- The characters Python `str.strip()` removes by default. -/
def pyWhitespace : List Char := [' ', '\t', '\n', '\r', '\x0b', '\x0c']

/-- Python `str.strip()`: drop leading and trailing whitespace. -/
def pyStrip (s : Str) : Str :=
  ((s.dropWhile (· ∈ pyWhitespace)).reverse.dropWhile (· ∈ pyWhitespace)).reverse

/-- Python `str.rstrip("@")`: drop trailing `'@'` characters (the source
uses `rstrip`, i.e. the trailing end, not the leading end). -/
def pyRstripAtSign (s : Str) : Str :=
  (s.reverse.dropWhile (· = '@')).reverse

/-- Python `needle in hay` for strings: substring containment. -/
def strContains (hay needle : Str) : Bool :=
  hay.tails.any (fun t => needle.isPrefixOf t)

/-- Python `s.split(c, 1)`: the part before the first occurrence of `c`
and the part after it. -/
def splitFirst (c : Char) (s : Str) : Str × Str :=
  (s.takeWhile (· ≠ c), (s.dropWhile (· ≠ c)).drop 1)

/-- The domain part of an e-mail, as computed by
`email.lower().split('@', 1)` in `verify_email`. -/
def domainOf (email : Str) : Str := (splitFirst '@' (pyLower email)).2

/-- Lower a Lean `String` character-wise (used for the confidence mode,
which the source normalises with `.lower()`). -/
def pyLowerS (s : String) : String := String.mk (s.data.map Char.toLower)

/-- Result dictionary of `EmailVerifier.smtp_handshake`. -/
structure SmtpResult where
  accepted : Bool
  rejected : Bool
  error : Option String
  mx_used : Option Str
  skipped : Bool
deriving Repr, DecidableEq

/-- Result dictionary of `EmailVerifier.detect_catch_all` (plus the
`skipped` flag that `verify_email` attaches). -/
structure CatchAll where
  is_catchall : Bool
  test_email : Option Str
  skipped : Bool
deriving Repr, DecidableEq

/-- Result dictionary of `EmailVerifier.check_mx_records`. -/
structure MxCheck where
  valid : Bool
  mx_hosts : List Str
  error : Option String
deriving Repr, DecidableEq

/-- Result dictionary of `EmailVerifier.check_deliverability`. -/
structure Deliverability where
  spf : Bool
  dkim : Bool
  dmarc : Bool
  spf_record : Option String
  dmarc_record : Option String
  skipped : Bool
deriving Repr, DecidableEq

/-- Python `round(x, 2)`: round to two decimal places.  (Every value this
is applied to in the program is an exact multiple of `1/20`, so the tie
rule is irrelevant here.) -/
def round2 (q : ℚ) : ℚ := (round (q * 100) : ℚ) / 100

/-- `sum([spf, dkim, dmarc])` in `calculate_confidence`. -/
def securityCount (d : Deliverability) : ℕ :=
  (if d.spf then 1 else 0) + (if d.dkim then 1 else 0) + (if d.dmarc then 1 else 0)

/-- The sequence of `confidence +=` updates in `calculate_confidence`
before the aggressive-mode block (for the non-rejected path). -/
def baseConfidence (smtp : SmtpResult) (catch_all : CatchAll) (mx : MxCheck)
    (deliv : Deliverability) : ℚ :=
  (if smtp.accepted then 0.60 else 0)
    + (if mx.valid then 0.10 else 0)
    + (if !catch_all.is_catchall then 0.15 else 0)
    + ((securityCount deliv : ℚ) / 3) * 0.15

/-- The aggressive-mode block of `calculate_confidence`: three sequential
conditional updates of the running confidence `c`. -/
def aggressiveAdjust (smtp : SmtpResult) (catch_all : CatchAll) (mx : MxCheck)
    (deliv : Deliverability) (c : ℚ) : ℚ :=
  let domain_secure := deliv.spf || deliv.dmarc
  let a1 := if !smtp.accepted && mx.valid && domain_secure then max c 0.65 else c
  let a2 := if smtp.skipped && mx.valid then max a1 0.60 else a1
  if !catch_all.is_catchall && mx.valid then min (a2 + 0.1) 0.95 else a2

/-- `EmailVerifier.calculate_confidence`.  An explicit rejection (reached
only when the probe was not accepted, per the `elif`) returns 0.0
immediately; otherwise the weighted sum is built, the aggressive-mode
adjustments are applied when requested, and the result is rounded to two
decimals. -/
def calculate_confidence (smtp : SmtpResult) (catch_all : CatchAll) (mx : MxCheck)
    (deliv : Deliverability) (confidence_mode : String) : ℚ :=
  if smtp.rejected && !smtp.accepted then 0
  else
    let c := baseConfidence smtp catch_all mx deliv
    round2 (if confidence_mode = "aggressive" then
      aggressiveAdjust smtp catch_all mx deliv c else c)

/-- `self.smtp_blocked_domains` from `EmailVerifier.__init__`. -/
def smtp_blocked_domains : List Str :=
  ["outlook.com".data, "hotmail.com".data, "live.com".data, "msn.com".data,
   "gmail.com".data, "googlemail.com".data, "yahoo.com".data, "yahoo.co.uk".data,
   "aol.com".data, "icloud.com".data, "me.com".data, "mac.com".data,
   "microsoft.com".data, "office365.com".data]

/-- `transactional_patterns` from `EmailVerifier.smtp_handshake`. -/
def transactional_patterns : List Str :=
  ["inbound-smtp".data, "amazonaws.com".data, "sendgrid.net".data,
   "mailgun.org".data, "mailgun.com".data, "sparkpostmail.com".data,
   "postmarkapp.com".data, "mandrillapp.com".data]

/-- What happens when `smtp_handshake` tries one mail-exchange host.  The
network is an input here: each constructor records how far the session
got and with what answer, matching the branches of the per-host `try`
blocks in the source. -/
inductive HostOutcome where
  /-- connect, EHLO/HELO and MAIL FROM succeeded; RCPT TO answered with
  this reply code and message. -/
  | rcptCode (code : ℕ) (message : String)
  /-- MAIL FROM was answered with a code outside {250, 251}: quit and
  move on (no error is recorded). -/
  | mailFromRefused
  /-- `smtplib.SMTPServerDisconnected`: move on, no error recorded. -/
  | disconnected
  /-- `socket.timeout` inside the session: error "Connection timeout". -/
  | sessionTimeout
  /-- any other exception inside the session: error "SMTP error: ...". -/
  | sessionError (msg : String)
  /-- `socket.gaierror` at the outer level: move on, no error recorded. -/
  | gaiError
  /-- `socket.timeout` at the outer level: move on, no error recorded. -/
  | outerTimeout
  /-- any other exception at the outer level: error "Connection error: ...". -/
  | connError (msg : String)
deriving Repr, DecidableEq

/-- The initial result dictionary of `smtp_handshake`. -/
def initSmtpResult : SmtpResult :=
  { accepted := false, rejected := false, error := none, mx_used := none, skipped := false }

/-- The `for mx_host in mx_hosts[:2]` loop of `smtp_handshake`, carrying
the mutable result dictionary.  A branch that `return`s in the source
stops the recursion; a branch that `continue`s recurses on the remaining
hosts. -/
def smtpLoop (probe : Str → HostOutcome) : List Str → SmtpResult → SmtpResult
  | [], st => st
  | host :: rest, st =>
    match probe host with
    | .rcptCode code message =>
      if code = 250 ∨ code = 251 then
        { st with accepted := true, mx_used := some host }
      else if code = 550 ∨ code = 553 then
        { st with rejected := true, error := some "Mailbox does not exist", mx_used := some host }
      else if code = 450 ∨ code = 451 then
        smtpLoop probe rest
          { st with error := some "Temporarily unavailable (greylisted)", mx_used := some host }
      else if code = 421 then
        smtpLoop probe rest { st with error := some "Service unavailable" }
      else if 500 ≤ code ∧ code < 600 then
        { st with
            rejected := true
            error := some ("Permanent SMTP error: " ++ toString code)
            mx_used := some host }
      else
        smtpLoop probe rest
          { st with error := some ("Unexpected response: " ++ toString code ++ " " ++ message) }
    | .mailFromRefused => smtpLoop probe rest st
    | .disconnected => smtpLoop probe rest st
    | .sessionTimeout => smtpLoop probe rest { st with error := some "Connection timeout" }
    | .sessionError msg => smtpLoop probe rest { st with error := some ("SMTP error: " ++ msg) }
    | .gaiError => smtpLoop probe rest st
    | .outerTimeout => smtpLoop probe rest st
    | .connError msg => smtpLoop probe rest { st with error := some ("Connection error: " ++ msg) }

/-- `EmailVerifier.smtp_handshake`.  The skip guards for consumer
providers and transactional services run first; then the first two
mail-exchange hosts are probed; a fall-through without an early return
(exactly the case where neither `accepted` nor `rejected` was set) gets
the default error when none was recorded. -/
def smtp_handshake (probe : Str → HostOutcome) (domain : Str) (mx_hosts : List Str) :
    SmtpResult :=
  let domain_lower := pyLower domain
  if smtp_blocked_domains.any (fun blocked =>
      strContains domain_lower blocked || ('.' :: blocked).isSuffixOf domain_lower) then
    { initSmtpResult with
        skipped := true
        error := some "SMTP check skipped (domain typically blocks verification)" }
  else if (mx_hosts.take 2).any (fun mx_host =>
      transactional_patterns.any (fun pattern => strContains (pyLower mx_host) pattern)) then
    { initSmtpResult with
        skipped := true
        error := some "SMTP check skipped (transactional email service - does not support mailbox verification)" }
  else
    let after := smtpLoop probe (mx_hosts.take 2) initSmtpResult
    if after.accepted || after.rejected then after
    else if after.error = none then
      { after with error := some "Could not connect to any MX server" }
    else after

/-- `EmailVerifier.detect_catch_all`: probe a random local part (given
here as an input, since the source draws it from a random generator) and
report whether it was accepted. -/
def detect_catch_all (probe : Str → HostOutcome) (random_local : Str) (domain : Str)
    (mx_hosts : List Str) : CatchAll :=
  let test_email := random_local ++ ('@' :: domain)
  let smtp := smtp_handshake probe domain mx_hosts
  { is_catchall := smtp.accepted, test_email := some test_email, skipped := false }

/-- The externally visible fields of the result dictionary of
`EmailVerifier.verify_email`; `detail_keys` records which keys were added
to the `details` dictionary, in insertion order. -/
structure VerifyResult where
  email : Str
  status : String
  confidence : ℚ
  reason : String
  detail_keys : List String
deriving Repr, DecidableEq

/-- Network/cache operations `verify_email` can perform, in order of
execution, for a call hitting empty caches. -/
inductive VOp where
  | cacheLookupMx
  | dnsMxLookup
  | cacheStoreMx
  | smtpProbe
  | cacheLookupDeliverability
  | dnsDeliverabilityLookup
  | cacheStoreDeliverability
  | catchAllProbe
  | internetCheck
deriving Repr, DecidableEq

/-- A value of the `DOMAIN_CONFIDENCE_OVERRIDES` table. -/
structure DomainOverride where
  min_confidence : Option ℚ
  force_status : Option String
deriving Repr, DecidableEq

/-- `DOMAIN_CONFIDENCE_OVERRIDES` is empty in the source. -/
def DOMAIN_CONFIDENCE_OVERRIDES : List (Str × DomainOverride) := []

/-- `EmailVerifier.verify_email` for one call against empty caches.  The
network is abstracted by oracles: `mxOf` for `check_mx_records`,
`smtpOf` for `smtp_handshake` on the target address, `delivOf` for
`check_deliverability`, and `catchOf` for `detect_catch_all`.  Besides
the result, the list of network/cache operations performed is returned,
in execution order. -/
def verify_email (email : Str) (fast_mode : Bool) (confidence_mode : String)
    (internet_checks : Bool) (enable_internet_checks : Bool)
    (mxOf : Str → MxCheck) (smtpOf : Str → Str → List Str → SmtpResult)
    (delivOf : Str → Deliverability) (catchOf : Str → List Str → CatchAll) :
    VerifyResult × List VOp :=
  if email = [] ∨ ¬ '@' ∈ email then
    ({ email := email, status := "invalid", confidence := 0,
       reason := "Invalid email format", detail_keys := [] }, [])
  else
    let domain := domainOf email
    let mode := pyLowerS (if confidence_mode = "" then "balanced" else confidence_mode)
    let mx_check := mxOf domain
    let mxOps := [VOp.cacheLookupMx, VOp.dnsMxLookup, VOp.cacheStoreMx]
    if ¬ mx_check.valid then
      ({ email := email, status := "invalid", confidence := 0,
         reason := "Domain has no valid MX records", detail_keys := ["mx_check"] }, mxOps)
    else
      let smtp_result := smtpOf email domain mx_check.mx_hosts
      let deliverability := { delivOf domain with skipped := false }
      let catch_all : CatchAll :=
        if fast_mode then { is_catchall := false, test_email := none, skipped := true }
        else { catchOf domain mx_check.mx_hosts with skipped := false }
      let runInternet := internet_checks || enable_internet_checks
      let ops := mxOps ++ [VOp.smtpProbe, VOp.cacheLookupDeliverability,
          VOp.dnsDeliverabilityLookup, VOp.cacheStoreDeliverability]
        ++ (if fast_mode then [] else [VOp.catchAllProbe])
        ++ (if runInternet then [VOp.internetCheck] else [])
      let detail_keys := ["mx_check", "smtp_check", "deliverability", "catch_all"]
        ++ (if runInternet then ["internet_check"] else [])
      let confidence := calculate_confidence smtp_result catch_all mx_check deliverability mode
      let scr : String × String × ℚ :=
        if smtp_result.skipped then
          if mx_check.valid && (deliverability.spf || deliverability.dmarc) then
            ("likely_valid",
             "Domain exists with valid MX and security records (SMTP check blocked by provider)",
             min 0.75 (confidence + 0.15))
          else
            ("unknown", "Could not complete full verification (SMTP blocked)", confidence)
        else if smtp_result.accepted then
          if catch_all.is_catchall then
            ("catch-all", "Email accepted but domain uses catch-all", confidence)
          else
            ("valid", "Email verified and deliverable", confidence)
        else if smtp_result.rejected then
          ("invalid",
           "Mailbox rejected: " ++ (match smtp_result.error with
             | some e => e
             | none => "None"),
           confidence)
        else
          if mx_check.valid && (deliverability.spf || deliverability.dmarc) then
            ("likely_valid",
             "Domain valid with security records (SMTP timeout - may be blocked)",
             min 0.70 (confidence + 0.10))
          else
            ("unknown", "Could not verify mailbox (server unavailable or timeout)", confidence)
      let base : VerifyResult :=
        { email := email, status := scr.1, confidence := scr.2.2, reason := scr.2.1,
          detail_keys := detail_keys }
      let final :=
        match DOMAIN_CONFIDENCE_OVERRIDES.lookup domain with
        | none => base
        | some ov =>
          let withConf := match ov.min_confidence with
            | some m => { base with confidence := max base.confidence m }
            | none => base
          match ov.force_status with
          | some s => { withConf with status := s }
          | none => withConf
      (final, ops)

/-- The token names recognised by `generate_patterns` templates. -/
inductive Tok where
  | first | last | f | l | fi | li | first3 | last3 | domain | digits2
deriving Repr, DecidableEq

/-- One piece of a parsed template string: literal text, a recognised
token in braces, or a brace reference to a name outside the token map
(which makes `str.format` raise `KeyError`, so the template is skipped). -/
inductive Chunk where
  | lit (s : Str)
  | tok (t : Tok)
  | badTok
deriving Repr, DecidableEq

/-- A template string, pre-parsed into chunks.  (Template syntax itself —
splitting `"{first}.{last}"` at its braces — is resolved at this level;
`custom_patterns` are likewise supplied pre-parsed, with surrounding
whitespace already stripped as the source does before formatting.) -/
abbrev Template := List Chunk

/-- The `tokens` dictionary built in `generate_patterns`. -/
structure TokenMap where
  first : Str
  last : Str
  f : Str
  l : Str
  fi : Str
  li : Str
  first3 : Str
  last3 : Str
  domain : Str
  digits2 : Str
deriving Repr, DecidableEq

/-- Look a token up in the map. -/
def tokVal (tk : TokenMap) : Tok → Str
  | .first => tk.first
  | .last => tk.last
  | .f => tk.f
  | .l => tk.l
  | .fi => tk.fi
  | .li => tk.li
  | .first3 => tk.first3
  | .last3 => tk.last3
  | .domain => tk.domain
  | .digits2 => tk.digits2

/-- `template.format(**tokens)`: `none` models the `KeyError` path that
the source catches with `continue`. -/
def renderTemplate (tk : TokenMap) (tpl : Template) : Option Str :=
  tpl.foldr (fun c acc =>
    match c, acc with
    | _, none => none
    | .badTok, _ => none
    | .lit s, some r => some (s ++ r)
    | .tok t, some r => some (tokVal tk t ++ r)) (some [])

/-- `DEFAULT_PATTERN_TEMPLATES`, pre-parsed. -/
def DEFAULT_PATTERN_TEMPLATES : List Template :=
  [[.tok .first, .lit ['.'], .tok .last],
   [.tok .first, .lit ['_'], .tok .last],
   [.tok .first, .lit ['-'], .tok .last],
   [.tok .first, .tok .last],
   [.tok .first, .tok .l],
   [.tok .f, .tok .last],
   [.tok .f, .lit ['.'], .tok .last],
   [.tok .first, .lit ['.'], .tok .l],
   [.tok .last, .lit ['.'], .tok .first],
   [.tok .last, .lit ['_'], .tok .first],
   [.tok .last, .tok .first],
   [.tok .f, .tok .l, .tok .last],
   [.tok .first, .tok .last, .tok .f],
   [.tok .first, .tok .last, .tok .l],
   [.tok .last, .tok .first, .tok .l],
   [.tok .f, .tok .last, .tok .digits2],
   [.tok .first, .tok .last, .tok .digits2],
   [.tok .f, .tok .l, .tok .digits2]]

/-- `NUMERIC_SUFFIXES`. -/
def NUMERIC_SUFFIXES : List Str :=
  ["1".data, "12".data, "99".data, "01".data, "001".data, "123".data]

/-- `SEPARATORS`. -/
def SEPARATORS : List Str := [[], ['.'], ['_'], ['-']]

/-- The mutable pair (`patterns` list, `seen` set) threaded through the
nested `add` closure of `generate_patterns`; the set is modelled by the
list of its members. -/
structure GenState where
  patterns : List Str
  seen : List Str
deriving Repr, DecidableEq

/-- The `add` closure of `generate_patterns`: skip empty patterns, append
the domain unless the pattern already contains `'@'`, and keep the first
occurrence of each final address. -/
def addPattern (domain_lower : Str) (st : GenState) (pattern : Str) : GenState :=
  if pattern = [] then st
  else
    let email := if '@' ∈ pattern then pattern else pattern ++ ('@' :: domain_lower)
    if email ∈ st.seen then st
    else { patterns := st.patterns ++ [email], seen := email :: st.seen }

/-- Python `s[-1] if s else ''`. -/
def lastChar (s : Str) : Str := s.reverse.take 1

/-- `EmailFinder.generate_patterns`.  Names and domain are normalised
(the source really calls `rstrip("@")` on the domain, which strips
trailing at-signs); default templates, the numeric-suffix sweep, the
separator sweep, a handful of extra shapes, and the custom templates are
expanded in source order through `addPattern`. -/
def generate_patterns (first_name last_name domain : Str)
    (custom_patterns : List Template) (include_defaults : Bool) : List Str :=
  let first := pyStrip (pyLower first_name)
  let last := pyStrip (pyLower last_name)
  let domain_lower := pyRstripAtSign (pyStrip (pyLower domain))
  if first = [] ∨ last = [] ∨ domain_lower = [] then []
  else
    let tk : TokenMap :=
      { first := first, last := last, f := first.take 1, l := last.take 1,
        fi := first.take 2, li := last.take 2, first3 := first.take 3,
        last3 := last.take 3, domain := domain_lower, digits2 := "12".data }
    let add := addPattern domain_lower
    let st0 : GenState := { patterns := [], seen := [] }
    let st1 := if include_defaults then
        DEFAULT_PATTERN_TEMPLATES.foldl (fun st tpl =>
          match renderTemplate tk tpl with
          | none => st
          | some p => add st p) st0
      else st0
    let base_tokens : List Str :=
      [first ++ ['.'] ++ last, first ++ last, first ++ ['_'] ++ last,
       first ++ ['-'] ++ last, first ++ last.take 1, first.take 1 ++ last,
       last ++ first, last ++ ['.'] ++ first]
    let st2 := base_tokens.foldl (fun st token =>
        NUMERIC_SUFFIXES.foldl (fun st suffix => add st (token ++ suffix)) st) st1
    let st3 := SEPARATORS.foldl (fun st sep =>
        let st := add st (first ++ sep ++ last)
        let st := add st (first.take 1 ++ sep ++ last)
        let st := add st (first ++ sep ++ last.take 1)
        let st := add st (first ++ sep ++ last ++ tk.f)
        add st (first ++ sep ++ last ++ tk.l)) st2
    let st4 := add st3 (last ++ first ++ ['1'])
    let st5 := add st4 (last ++ first ++ "123".data)
    let st6 := add st5 (tk.f ++ last ++ tk.l)
    let st7 := add st6 (tk.f ++ last ++ (if first = [] then [] else lastChar first))
    let st8 := add st7 (first ++ tk.l ++ (if last = [] then [] else lastChar last))
    let st9 := add st8 (tk.f ++ last ++ ['1'])
    let st10 := if 1 < first.length ∧ 1 < last.length then
        let st := add st9 (tk.f ++ ((first.drop 1).take 1) ++ last)
        let st := add st (first ++ last.take 2)
        add st (first.take 2 ++ last)
      else st9
    let st11 := custom_patterns.foldl (fun st tpl =>
        if tpl = [] then st
        else match renderTemplate tk tpl with
          | none => st
          | some p => add st p) st10
    st11.patterns

/-- `priority_patterns` as built inside `EmailFinder.find_best_emails`
(note: from the raw arguments, lower-cased but not stripped). -/
def priority_patterns (first_name last_name domain : Str) : List Str :=
  let fl := pyLower first_name
  let ll := pyLower last_name
  let dl := pyLower domain
  let f0 := pyLower (first_name.take 1)
  [fl ++ ['.'] ++ ll ++ ['@'] ++ dl,
   fl ++ ll ++ ['@'] ++ dl,
   fl ++ ['@'] ++ dl,
   f0 ++ ['.'] ++ ll ++ ['@'] ++ dl,
   f0 ++ ll ++ ['@'] ++ dl]

/-- The two reordering loops of `find_best_emails`: priority patterns
that occur in the candidate list come first (`seen` guarding against
duplicates), then every candidate not in `seen` follows in original
order (the second source loop reads but never extends `seen`, which is
exactly a filter). -/
def buildOrdered (priority patterns : List Str) : List Str :=
  let step1 := priority.foldl (fun (acc : List Str × List Str) p =>
      if p ∈ patterns ∧ ¬ p ∈ acc.2 then (acc.1 ++ [p], p :: acc.2) else acc)
    ([], [])
  step1.1 ++ patterns.filter (fun p => ¬ p ∈ step1.2)

/-- One collected entry of the `results` list in `find_best_emails`. -/
structure Found where
  email : Str
  status : String
  confidence : ℚ
  reason : String
deriving Repr, DecidableEq

/-- The fields of a `verify_email` result that `find_best_emails`
consumes. -/
structure VerOutcome where
  status : String
  confidence : ℚ
  reason : String
deriving Repr, DecidableEq

/-- The probing loop of `find_best_emails`.  `verify` abstracts
`self.verifier.verify_email`; `none` models the exception path that the
source catches and skips.  Returns the collected results and how many
candidates were actually probed (how many `verify` calls were made). -/
def collectLoop (verify : Str → Option VerOutcome) (max_results : ℕ) :
    List Str → List Found → List Found × ℕ
  | [], results => (results, 0)
  | email :: rest, results =>
    match verify email with
    | none =>
      ((collectLoop verify max_results rest results).1,
       (collectLoop verify max_results rest results).2 + 1)
    | some v =>
      if v.status = "valid" ∨ v.status = "catch-all" ∨ v.status = "likely_valid" then
        if v.confidence ≥ 0.8 ∧ max_results ≤ (results ++
            [({ email := email, status := v.status, confidence := v.confidence,
                reason := v.reason } : Found)]).length then
          (results ++
            [{ email := email, status := v.status, confidence := v.confidence,
               reason := v.reason }], 1)
        else
          ((collectLoop verify max_results rest (results ++
             [{ email := email, status := v.status, confidence := v.confidence,
                reason := v.reason }])).1,
           (collectLoop verify max_results rest (results ++
             [{ email := email, status := v.status, confidence := v.confidence,
                reason := v.reason }])).2 + 1)
      else
        ((collectLoop verify max_results rest results).1,
         (collectLoop verify max_results rest results).2 + 1)

/-- `EmailFinder.find_best_emails`, also reporting the probe count.
Generates candidates, prioritises them, clamps `max_patterns`, probes
through `collectLoop`, then sorts by confidence descending (Python's
stable sort with `reverse=True`) and truncates to `max_results`. -/
def find_best_emails_run (first_name last_name domain : Str)
    (max_results max_patterns : ℕ) (custom_patterns : List Template)
    (include_defaults : Bool) (verify : Str → Option VerOutcome) :
    List Found × ℕ :=
  let patterns := generate_patterns first_name last_name domain custom_patterns include_defaults
  if patterns = [] then ([], 0)
  else
    let ordered := buildOrdered (priority_patterns first_name last_name domain) patterns
    let mp := max 1 (min max_patterns ordered.length)
    let patterns_to_check := ordered.take mp
    let collected := collectLoop verify max_results patterns_to_check []
    ((collected.1.mergeSort (fun a b => decide (b.confidence ≤ a.confidence))).take max_results,
     collected.2)

/-- `EmailFinder.find_best_emails` (the source's return value). -/
def find_best_emails (first_name last_name domain : Str)
    (max_results max_patterns : ℕ) (custom_patterns : List Template)
    (include_defaults : Bool) (verify : Str → Option VerOutcome) : List Found :=
  (find_best_emails_run first_name last_name domain max_results max_patterns
    custom_patterns include_defaults verify).1

/-! ### Basic properties of the SMTP probing loop -/

/-- The host loop never touches the `skipped` flag. -/
theorem smtpLoop_skipped (probe : Str → HostOutcome) :
    ∀ (hosts : List Str) (st : SmtpResult), (smtpLoop probe hosts st).skipped = st.skipped := by
  intro hosts
  induction hosts with
  | nil => intro st; rfl
  | cons host rest ih =>
    intro st
    simp only [smtpLoop]
    cases probe host with
    | rcptCode code message =>
      by_cases h1 : code = 250 ∨ code = 251
      · simp [h1]
      · by_cases h2 : code = 550 ∨ code = 553
        · simp [h1, h2]
        · by_cases h3 : code = 450 ∨ code = 451
          · simp [h1, h2, h3, ih]
          · by_cases h4 : code = 421
            · simp [h1, h2, h3, h4, ih]
            · by_cases h5 : 500 ≤ code ∧ code < 600
              · simp [h1, h2, h3, h4, h5]
              · simp [h1, h2, h3, h4, h5, ih]
    | mailFromRefused => exact ih st
    | disconnected => exact ih st
    | sessionTimeout => exact ih _
    | sessionError msg => exact ih _
    | gaiError => exact ih st
    | outerTimeout => exact ih st
    | connError msg => exact ih _

/-- If the loop starts with both verdict flags clear, a run that ends
`rejected` never ends `accepted` (and conversely): the two early-return
families are disjoint. -/
theorem smtpLoop_not_both (probe : Str → HostOutcome) :
    ∀ (hosts : List Str) (st : SmtpResult), st.accepted = false → st.rejected = false →
      ¬((smtpLoop probe hosts st).accepted = true ∧ (smtpLoop probe hosts st).rejected = true) := by
  intro hosts
  induction hosts with
  | nil => intro st ha hr h; simp only [smtpLoop] at h; rw [ha] at h; exact Bool.false_ne_true h.1
  | cons host rest ih =>
    intro st ha hr h
    simp only [smtpLoop] at h
    cases hp : probe host <;> simp only [hp] at h
    case rcptCode code message =>
      by_cases h1 : code = 250 ∨ code = 251
      · rw [if_pos h1] at h
        rw [hr] at h
        exact Bool.false_ne_true h.2
      · by_cases h2 : code = 550 ∨ code = 553
        · rw [if_neg h1, if_pos h2] at h
          rw [ha] at h
          exact Bool.false_ne_true h.1
        · by_cases h3 : code = 450 ∨ code = 451
          · rw [if_neg h1, if_neg h2, if_pos h3] at h
            refine ih _ ?_ ?_ h <;> simpa
          · by_cases h4 : code = 421
            · rw [if_neg h1, if_neg h2, if_neg h3, if_pos h4] at h
              refine ih _ ?_ ?_ h <;> simpa
            · by_cases h5 : 500 ≤ code ∧ code < 600
              · rw [if_neg h1, if_neg h2, if_neg h3, if_neg h4, if_pos h5] at h
                rw [ha] at h
                exact Bool.false_ne_true h.1
              · rw [if_neg h1, if_neg h2, if_neg h3, if_neg h4, if_neg h5] at h
                refine ih _ ?_ ?_ h <;> simpa
    all_goals refine ih _ ?_ ?_ h <;> simpa

/-- A handshake result that carries an explicit rejection is never also
accepted or skipped. -/
theorem smtp_handshake_rejected_shape (probe : Str → HostOutcome) (domain : Str)
    (mx_hosts : List Str) (h : (smtp_handshake probe domain mx_hosts).rejected = true) :
    (smtp_handshake probe domain mx_hosts).accepted = false ∧
    (smtp_handshake probe domain mx_hosts).skipped = false := by
  unfold smtp_handshake at *
  by_cases hb : smtp_blocked_domains.any (fun blocked =>
      strContains (pyLower domain) blocked || ('.' :: blocked).isSuffixOf (pyLower domain)) = true
  · simp [hb, initSmtpResult] at h
  · by_cases ht : ((mx_hosts.take 2).any (fun mx_host =>
        transactional_patterns.any (fun pattern => strContains (pyLower mx_host) pattern))) = true
    · simp [hb, ht, initSmtpResult] at h
    · simp only [hb, ht, Bool.false_eq_true, if_false] at h ⊢
      set after := smtpLoop probe (mx_hosts.take 2) initSmtpResult with hafter
      have hloopskip : after.skipped = false := by
        rw [hafter]; rw [smtpLoop_skipped]; rfl
      by_cases hor : (after.accepted || after.rejected) = true
      · simp only [hor, if_true] at h ⊢
        refine ⟨?_, hloopskip⟩
        by_contra hacc
        rw [Bool.not_eq_false] at hacc
        exact smtpLoop_not_both probe (mx_hosts.take 2) initSmtpResult rfl rfl ⟨hacc, h⟩
      · exfalso
        have hrej : after.rejected = false := by
          rcases Bool.or_eq_false_iff.mp (Bool.not_eq_true _ |>.mp hor) with ⟨_, hr⟩
          exact hr
        simp only [hor, Bool.false_eq_true, if_false] at h
        by_cases he : after.error = none
        · simp only [he, if_pos] at h
          rw [hrej] at h
          exact Bool.false_ne_true h
        · simp only [he, if_neg, ite_false] at h
          rw [hrej] at h
          exact Bool.false_ne_true h

/-- C1: for every combination of catch-all result, MX-check result,
deliverability record and confidence mode, a probe outcome with
`rejected = true` (and `accepted = false`) makes `calculate_confidence`
return 0.0; outcomes produced by `smtp_handshake` with `rejected = true`
are never also accepted or skipped; and `verify_email` classifies such a
probe outcome as status `invalid` with confidence 0.0 — in particular the
aggressive-mode floors never lift a rejected probe above 0.0, since the
mode is universally quantified here. -/
theorem C1_rejected_probe_forces_zero_and_invalid :
    (∀ (smtp : SmtpResult) (catch_all : CatchAll) (mx : MxCheck) (deliv : Deliverability)
        (mode : String), smtp.rejected = true → smtp.accepted = false →
        calculate_confidence smtp catch_all mx deliv mode = 0) ∧
    (∀ (probe : Str → HostOutcome) (domain : Str) (mx_hosts : List Str),
        (smtp_handshake probe domain mx_hosts).rejected = true →
        (smtp_handshake probe domain mx_hosts).accepted = false ∧
        (smtp_handshake probe domain mx_hosts).skipped = false) ∧
    (∀ (email : Str) (fast_mode : Bool) (confidence_mode : String)
        (internet_checks enable_internet_checks : Bool)
        (mxOf : Str → MxCheck) (smtpOf : Str → Str → List Str → SmtpResult)
        (delivOf : Str → Deliverability) (catchOf : Str → List Str → CatchAll),
        ¬ (email = [] ∨ ¬ '@' ∈ email) →
        (mxOf (domainOf email)).valid = true →
        (smtpOf email (domainOf email) (mxOf (domainOf email)).mx_hosts).rejected = true →
        (smtpOf email (domainOf email) (mxOf (domainOf email)).mx_hosts).accepted = false →
        (smtpOf email (domainOf email) (mxOf (domainOf email)).mx_hosts).skipped = false →
        (verify_email email fast_mode confidence_mode internet_checks enable_internet_checks
          mxOf smtpOf delivOf catchOf).1.status = "invalid" ∧
        (verify_email email fast_mode confidence_mode internet_checks enable_internet_checks
          mxOf smtpOf delivOf catchOf).1.confidence = 0) := by
  refine ⟨?_, smtp_handshake_rejected_shape, ?_⟩
  · intro smtp catch_all mx deliv mode hr ha
    simp [calculate_confidence, hr, ha]
  · intro email fast_mode confidence_mode internet_checks enable_internet_checks
      mxOf smtpOf delivOf catchOf hwf hmx hr ha hs
    have hzero : ∀ ca dv md, calculate_confidence
        (smtpOf email (domainOf email) (mxOf (domainOf email)).mx_hosts) ca
        (mxOf (domainOf email)) dv md = 0 := by
      intro ca dv md
      simp [calculate_confidence, hr, ha]
    constructor <;>
      simp [verify_email, hwf, hmx, hr, ha, hs, hzero, DOMAIN_CONFIDENCE_OVERRIDES]

/-- Witness for C1 at a concrete rejected probe. -/
theorem C1_witness :
    calculate_confidence
      { accepted := false
        rejected := true
        error := some "Mailbox does not exist"
        mx_used := some "m1.x.com".data
        skipped := false }
      { is_catchall := false, test_email := none, skipped := true }
      { valid := true, mx_hosts := ["m1.x.com".data], error := none }
      { spf := true
        dkim := true
        dmarc := true
        spf_record := none
        dmarc_record := none
        skipped := false }
      "aggressive" = 0 ∧
    (verify_email "a@x.com".data true "aggressive" false false
      (fun _ => { valid := true, mx_hosts := ["m1.x.com".data], error := none })
      (fun _ _ _ =>
        { accepted := false
          rejected := true
          error := some "Mailbox does not exist"
          mx_used := some "m1.x.com".data
          skipped := false })
      (fun _ =>
        { spf := true
          dkim := true
          dmarc := true
          spf_record := none
          dmarc_record := none
          skipped := false })
      (fun _ _ => { is_catchall := false, test_email := none, skipped := false })).1.status
      = "invalid" := by
  constructor
  · exact C1_rejected_probe_forces_zero_and_invalid.1 _ _ _ _ "aggressive" rfl rfl
  · exact (C1_rejected_probe_forces_zero_and_invalid.2.2 "a@x.com".data true "aggressive"
      false false _ _ _ _ (by decide) rfl rfl rfl rfl).1

/-- C9: an empty input or one with no at-sign makes `verify_email` return
status `invalid`, confidence 0.0, an empty details dictionary and an
empty reason-code trace — no DNS, SMTP or cache operation happens (the
trace is `[]` and the result does not depend on any oracle), and no
exception can arise since the function is total. -/
theorem C9_malformed_email_short_circuit
    (email : Str) (fast_mode : Bool) (confidence_mode : String)
    (internet_checks enable_internet_checks : Bool)
    (mxOf : Str → MxCheck) (smtpOf : Str → Str → List Str → SmtpResult)
    (delivOf : Str → Deliverability) (catchOf : Str → List Str → CatchAll)
    (h : email = [] ∨ ¬ '@' ∈ email) :
    verify_email email fast_mode confidence_mode internet_checks enable_internet_checks
      mxOf smtpOf delivOf catchOf =
    ({ email := email, status := "invalid", confidence := 0,
       reason := "Invalid email format", detail_keys := [] }, []) := by
  unfold verify_email
  rw [if_pos h]

/-- Witness for C9 on the at-sign-free input "plainaddress". -/
theorem C9_witness :
    verify_email "plainaddress".data true "balanced" true true
      (fun _ => { valid := true, mx_hosts := [], error := none })
      (fun _ _ _ => initSmtpResult)
      (fun _ =>
        { spf := false
          dkim := false
          dmarc := false
          spf_record := none
          dmarc_record := none
          skipped := false })
      (fun _ _ => { is_catchall := false, test_email := none, skipped := false }) =
    ({ email := "plainaddress".data, status := "invalid", confidence := 0,
       reason := "Invalid email format", detail_keys := [] }, []) :=
  C9_malformed_email_short_circuit "plainaddress".data true "balanced" true true
    (fun _ => { valid := true, mx_hosts := [], error := none })
    (fun _ _ _ => initSmtpResult)
    (fun _ =>
      { spf := false
        dkim := false
        dmarc := false
        spf_record := none
        dmarc_record := none
        skipped := false })
    (fun _ _ => { is_catchall := false, test_email := none, skipped := false })
    (Or.inr (by decide))

/-- The two mode strings `verify_email` can normalise to are distinct. -/
theorem balanced_ne_aggressive : (("balanced" : String) = "aggressive") = False := by decide

/-- C10: with an accepted probe, valid MX and no catch-all, aggressive
mode computes `min(confidence + 0.1, 0.95)` on top of the balanced
fusion; with all three deliverability signals the aggressive score is
0.95 while the balanced score is 1.00, so aggressive mode is not always
at least the balanced score. -/
theorem C10_aggressive_cap_below_balanced :
    (∀ (smtp : SmtpResult) (catch_all : CatchAll) (mx : MxCheck) (deliv : Deliverability),
        smtp.accepted = true → smtp.rejected = false → mx.valid = true →
        catch_all.is_catchall = false →
        calculate_confidence smtp catch_all mx deliv "aggressive" =
          min (calculate_confidence smtp catch_all mx deliv "balanced" + 0.1) 0.95) ∧
    (calculate_confidence
        { accepted := true, rejected := false, error := none, mx_used := none, skipped := false }
        { is_catchall := false, test_email := none, skipped := true }
        { valid := true, mx_hosts := [], error := none }
        { spf := true
          dkim := true
          dmarc := true
          spf_record := none
          dmarc_record := none
          skipped := false } "aggressive" = 0.95 ∧
      calculate_confidence
        { accepted := true, rejected := false, error := none, mx_used := none, skipped := false }
        { is_catchall := false, test_email := none, skipped := true }
        { valid := true, mx_hosts := [], error := none }
        { spf := true
          dkim := true
          dmarc := true
          spf_record := none
          dmarc_record := none
          skipped := false } "balanced" = 1) ∧
    ¬ (∀ (smtp : SmtpResult) (catch_all : CatchAll) (mx : MxCheck) (deliv : Deliverability),
        calculate_confidence smtp catch_all mx deliv "balanced" ≤
          calculate_confidence smtp catch_all mx deliv "aggressive") := by
  refine ⟨?_, ⟨?_, ?_⟩, ?_⟩
  · rintro ⟨a, r, e, m, s⟩ ⟨ca, te, csk⟩ ⟨mxv, mh, merr⟩ ⟨spf, dkim, dmarc, sr, dr, dsk⟩
      ha hr hmx hca
    subst ha hr hmx hca
    unfold calculate_confidence baseConfidence aggressiveAdjust securityCount
    simp only [balanced_ne_aggressive, if_false, eq_self_iff_true, if_true]
    cases spf <;> cases dkim <;> cases dmarc <;> cases s <;>
      norm_num [min_def, max_def, round2, round_eq]
  · unfold calculate_confidence baseConfidence aggressiveAdjust securityCount
    simp only [balanced_ne_aggressive, if_false, eq_self_iff_true, if_true]
    norm_num [min_def, max_def, round2, round_eq]
  · unfold calculate_confidence baseConfidence aggressiveAdjust securityCount
    simp only [balanced_ne_aggressive, if_false, eq_self_iff_true, if_true]
    norm_num [round2, round_eq]
  · intro hall
    have h1 := hall
      { accepted := true, rejected := false, error := none, mx_used := none, skipped := false }
      { is_catchall := false, test_email := none, skipped := true }
      { valid := true, mx_hosts := [], error := none }
      { spf := true
        dkim := true
        dmarc := true
        spf_record := none
        dmarc_record := none
        skipped := false }
    unfold calculate_confidence baseConfidence aggressiveAdjust securityCount at h1
    simp only [balanced_ne_aggressive, if_false, eq_self_iff_true, if_true] at h1
    norm_num [min_def, max_def, round2, round_eq] at h1

/-- Witness for C10's conditional part at a concrete accepted probe. -/
theorem C10_witness :
    calculate_confidence
      { accepted := true, rejected := false, error := none, mx_used := none, skipped := false }
      { is_catchall := false, test_email := none, skipped := true }
      { valid := true, mx_hosts := [], error := none }
      { spf := false
        dkim := false
        dmarc := false
        spf_record := none
        dmarc_record := none
        skipped := false } "aggressive" =
    min (calculate_confidence
      { accepted := true, rejected := false, error := none, mx_used := none, skipped := false }
      { is_catchall := false, test_email := none, skipped := true }
      { valid := true, mx_hosts := [], error := none }
      { spf := false
        dkim := false
        dmarc := false
        spf_record := none
        dmarc_record := none
        skipped := false } "balanced" + 0.1) 0.95 :=
  C10_aggressive_cap_below_balanced.1 _ _ _ _ rfl rfl rfl rfl

/-- C8: when the SMTP probe was skipped and MX is valid, `verify_email`
returns `likely_valid` with confidence `min(0.75, fused + 0.15)` if SPF
or DMARC is present, and `unknown` otherwise. -/
theorem C8_skipped_probe_classification
    (email : Str) (fast_mode : Bool) (confidence_mode : String)
    (internet_checks enable_internet_checks : Bool)
    (mxOf : Str → MxCheck) (smtpOf : Str → Str → List Str → SmtpResult)
    (delivOf : Str → Deliverability) (catchOf : Str → List Str → CatchAll)
    (hwf : ¬ (email = [] ∨ ¬ '@' ∈ email))
    (hmx : (mxOf (domainOf email)).valid = true)
    (hskip : (smtpOf email (domainOf email) (mxOf (domainOf email)).mx_hosts).skipped = true) :
    (((delivOf (domainOf email)).spf = true ∨ (delivOf (domainOf email)).dmarc = true) →
      (verify_email email fast_mode confidence_mode internet_checks enable_internet_checks
        mxOf smtpOf delivOf catchOf).1.status = "likely_valid" ∧
      (verify_email email fast_mode confidence_mode internet_checks enable_internet_checks
        mxOf smtpOf delivOf catchOf).1.confidence =
        min 0.75 (calculate_confidence
          (smtpOf email (domainOf email) (mxOf (domainOf email)).mx_hosts)
          (if fast_mode then { is_catchall := false, test_email := none, skipped := true }
            else { catchOf (domainOf email) (mxOf (domainOf email)).mx_hosts with skipped := false })
          (mxOf (domainOf email))
          { delivOf (domainOf email) with skipped := false }
          (pyLowerS (if confidence_mode = "" then "balanced" else confidence_mode)) + 0.15)) ∧
    ((delivOf (domainOf email)).spf = false → (delivOf (domainOf email)).dmarc = false →
      (verify_email email fast_mode confidence_mode internet_checks enable_internet_checks
        mxOf smtpOf delivOf catchOf).1.status = "unknown") := by
  constructor
  · intro hsig
    have hor : ((delivOf (domainOf email)).spf || (delivOf (domainOf email)).dmarc) = true := by
      rcases hsig with h | h <;> simp [h]
    constructor <;>
      simp [verify_email, hwf, hmx, hskip, hor, DOMAIN_CONFIDENCE_OVERRIDES]
  · intro hspf hdmarc
    simp [verify_email, hwf, hmx, hskip, hspf, hdmarc, DOMAIN_CONFIDENCE_OVERRIDES]

/-- Witness for C8 at a concrete skipped probe with SPF present. -/
theorem C8_witness :
    (verify_email "a@x.com".data true "balanced" false false
      (fun _ => { valid := true, mx_hosts := ["m1.x.com".data], error := none })
      (fun _ _ _ =>
        { accepted := false
          rejected := false
          error := some "SMTP check skipped (domain typically blocks verification)"
          mx_used := none
          skipped := true })
      (fun _ =>
        { spf := true
          dkim := false
          dmarc := false
          spf_record := none
          dmarc_record := none
          skipped := false })
      (fun _ _ => { is_catchall := false, test_email := none, skipped := false })).1.status
      = "likely_valid" :=
  (C8_skipped_probe_classification "a@x.com".data true "balanced" false false
    (fun _ => { valid := true, mx_hosts := ["m1.x.com".data], error := none })
    (fun _ _ _ =>
      { accepted := false
        rejected := false
        error := some "SMTP check skipped (domain typically blocks verification)"
        mx_used := none
        skipped := true })
    (fun _ =>
      { spf := true
        dkim := false
        dmarc := false
        spf_record := none
        dmarc_record := none
        skipped := false })
    (fun _ _ => { is_catchall := false, test_email := none, skipped := false })
    (by decide) rfl rfl |>.1 (Or.inl rfl)).1

/-! ### Monotonicity of the confidence fusion in the deliverability signals -/

/-- Rounding to two decimals is monotone. -/
theorem round2_mono {x y : ℚ} (h : x ≤ y) : round2 x ≤ round2 y := by
  unfold round2
  have hr : round (x * 100) ≤ round (y * 100) := by
    rw [round_eq, round_eq]
    exact Int.floor_le_floor (by linarith)
  have hc : ((round (x * 100) : ℤ) : ℚ) ≤ ((round (y * 100) : ℤ) : ℚ) := by exact_mod_cast hr
  linarith

/-- A conditional `max` floor is monotone when the guard can only switch
on and the running value only grow. -/
theorem ite_max_floor_mono {P Q : Prop} [Decidable P] [Decidable Q] {c c' b : ℚ}
    (himp : P → Q) (hc : c ≤ c') :
    (if P then max c b else c) ≤ (if Q then max c' b else c') := by
  by_cases hp : P
  · rw [if_pos hp, if_pos (himp hp)]
    exact max_le_max hc le_rfl
  · rw [if_neg hp]
    by_cases hq : Q
    · rw [if_pos hq]
      exact le_trans hc (le_max_left c' b)
    · rw [if_neg hq]
      exact hc

/-- A conditional capped bonus is monotone in the running value. -/
theorem ite_min_cap_mono {P : Prop} [Decidable P] {c c' b cap : ℚ} (hc : c ≤ c') :
    (if P then min (c + b) cap else c) ≤ (if P then min (c' + b) cap else c') := by
  by_cases hp : P
  · rw [if_pos hp, if_pos hp]
    exact min_le_min (by linarith) le_rfl
  · rw [if_neg hp, if_neg hp]
    exact hc

/-- The base weighted sum grows with the number of true signals. -/
theorem baseConfidence_mono (smtp : SmtpResult) (catch_all : CatchAll) (mx : MxCheck)
    {d d' : Deliverability} (h : securityCount d ≤ securityCount d') :
    baseConfidence smtp catch_all mx d ≤ baseConfidence smtp catch_all mx d' := by
  unfold baseConfidence
  have hq : ((securityCount d : ℚ)) ≤ ((securityCount d' : ℚ)) := by exact_mod_cast h
  have : ((securityCount d : ℚ)) / 3 * 0.15 ≤ ((securityCount d' : ℚ)) / 3 * 0.15 := by
    linarith
  linarith

/-- The aggressive-mode adjustments are monotone when the signal count
can only have grown and `spf ∨ dmarc` can only have switched on. -/
theorem aggressiveAdjust_mono (smtp : SmtpResult) (catch_all : CatchAll) (mx : MxCheck)
    {d d' : Deliverability} {c c' : ℚ}
    (hsec : (d.spf || d.dmarc) = true → (d'.spf || d'.dmarc) = true) (hc : c ≤ c') :
    aggressiveAdjust smtp catch_all mx d c ≤ aggressiveAdjust smtp catch_all mx d' c' := by
  unfold aggressiveAdjust
  refine ite_min_cap_mono (ite_max_floor_mono (fun hp => hp) (ite_max_floor_mono ?_ hc))
  intro hp
  have h1 : (!smtp.accepted && mx.valid) = true := by
    rcases Bool.and_eq_true_iff.mp (Bool.and_eq_true_iff.mp hp).1 with ⟨ha, hb⟩
    simp [ha, hb]
  have h2 : (d.spf || d.dmarc) = true := (Bool.and_eq_true_iff.mp hp).2
  have h3 := hsec h2
  rcases Bool.and_eq_true_iff.mp h1 with ⟨ha, hb⟩
  simp [ha, hb, h3]

/-- Core monotonicity: holding the probe outcome, catch-all status and
MX check fixed, the fused confidence grows with the signal count,
provided `spf ∨ dmarc` can only have switched on. -/
theorem calculate_confidence_mono (smtp : SmtpResult) (catch_all : CatchAll) (mx : MxCheck)
    (mode : String) {d d' : Deliverability}
    (hcount : securityCount d ≤ securityCount d')
    (hsec : (d.spf || d.dmarc) = true → (d'.spf || d'.dmarc) = true) :
    calculate_confidence smtp catch_all mx d mode ≤
      calculate_confidence smtp catch_all mx d' mode := by
  unfold calculate_confidence
  by_cases hrej : (smtp.rejected && !smtp.accepted) = true
  · rw [if_pos hrej, if_pos hrej]
  · rw [if_neg hrej, if_neg hrej]
    apply round2_mono
    by_cases hmode : mode = "aggressive"
    · rw [if_pos hmode, if_pos hmode]
      exact aggressiveAdjust_mono smtp catch_all mx hsec
        (baseConfidence_mono smtp catch_all mx hcount)
    · rw [if_neg hmode, if_neg hmode]
      exact baseConfidence_mono smtp catch_all mx hcount

/-- Two or more true signals always include `spf` or `dmarc`. -/
theorem secure_of_two_signals (d : Deliverability) (h : 2 ≤ securityCount d) :
    (d.spf || d.dmarc) = true := by
  rcases d with ⟨spf, dkim, dmarc, sr, dr, sk⟩
  cases spf <;> cases dkim <;> cases dmarc <;> simp_all [securityCount]

/-- A record with `spf ∨ dmarc` has at least one true signal. -/
theorem count_pos_of_secure (d : Deliverability) (h : (d.spf || d.dmarc) = true) :
    1 ≤ securityCount d := by
  rcases d with ⟨spf, dkim, dmarc, sr, dr, sk⟩
  cases spf <;> cases dkim <;> cases dmarc <;> simp_all [securityCount]

/-- C7: holding probe outcome, catch-all status, MX validity and mode
fixed, the confidence is non-decreasing in the number of true
deliverability signals — both when the count strictly grows and,
pointwise, when signals only switch from false to true. -/
theorem C7_confidence_monotone_in_signals :
    (∀ (smtp : SmtpResult) (catch_all : CatchAll) (mx : MxCheck) (mode : String)
        (d d' : Deliverability), securityCount d < securityCount d' →
        calculate_confidence smtp catch_all mx d mode ≤
          calculate_confidence smtp catch_all mx d' mode) ∧
    (∀ (smtp : SmtpResult) (catch_all : CatchAll) (mx : MxCheck) (mode : String)
        (d d' : Deliverability),
        (d.spf = true → d'.spf = true) → (d.dkim = true → d'.dkim = true) →
        (d.dmarc = true → d'.dmarc = true) →
        calculate_confidence smtp catch_all mx d mode ≤
          calculate_confidence smtp catch_all mx d' mode) := by
  constructor
  · intro smtp catch_all mx mode d d' hlt
    refine calculate_confidence_mono smtp catch_all mx mode (le_of_lt hlt) ?_
    intro hsd
    have h1 := count_pos_of_secure d hsd
    exact secure_of_two_signals d' (by omega)
  · intro smtp catch_all mx mode d d' h1 h2 h3
    refine calculate_confidence_mono smtp catch_all mx mode ?_ ?_
    · rcases d with ⟨spf, dkim, dmarc, sr, dr, sk⟩
      rcases d' with ⟨spf', dkim', dmarc', sr', dr', sk'⟩
      simp only [securityCount]
      cases spf <;> cases dkim <;> cases dmarc <;> simp_all <;> omega
    · intro hsd
      rcases Bool.or_eq_true_iff.mp hsd with h | h
      · simp [h1 h]
      · simp [h3 h]

/-- Witness for C7 at a concrete pair of signal records. -/
theorem C7_witness :
    calculate_confidence initSmtpResult
      { is_catchall := false, test_email := none, skipped := true }
      { valid := true, mx_hosts := [], error := none }
      { spf := false
        dkim := true
        dmarc := false
        spf_record := none
        dmarc_record := none
        skipped := false } "aggressive" ≤
    calculate_confidence initSmtpResult
      { is_catchall := false, test_email := none, skipped := true }
      { valid := true, mx_hosts := [], error := none }
      { spf := true
        dkim := true
        dmarc := false
        spf_record := none
        dmarc_record := none
        skipped := false } "aggressive" :=
  C7_confidence_monotone_in_signals.1 initSmtpResult
    { is_catchall := false, test_email := none, skipped := true }
    { valid := true, mx_hosts := [], error := none } "aggressive"
    { spf := false
      dkim := true
      dmarc := false
      spf_record := none
      dmarc_record := none
      skipped := false }
    { spf := true
      dkim := true
      dmarc := false
      spf_record := none
      dmarc_record := none
      skipped := false }
    (by simp [securityCount])

/-! ### The SMTP host loop: classification, host cap, exhaustion -/

/-- Appending to a non-empty string stays non-empty. -/
theorem append_ne_empty_left (s t : String) (h : s ≠ "") : s ++ t ≠ "" := by
  intro he
  apply h
  have hl := congrArg String.length he
  rw [String.length_append] at hl
  have : s.length = 0 := by
    have : (("" : String)).length = 0 := rfl
    omega
  cases s with
  | mk data =>
    cases data with
    | nil => rfl
    | cons c cs => simp [String.length] at this

/-- Every error the host loop can record is a non-empty string. -/
theorem smtpLoop_error_nonempty (probe : Str → HostOutcome) :
    ∀ (hosts : List Str) (st : SmtpResult),
      (st.error = none ∨ ∃ e, st.error = some e ∧ e ≠ "") →
      ((smtpLoop probe hosts st).error = none ∨
        ∃ e, (smtpLoop probe hosts st).error = some e ∧ e ≠ "") := by
  intro hosts
  induction hosts with
  | nil => intro st h; exact h
  | cons host rest ih =>
    intro st h
    simp only [smtpLoop]
    cases hp : probe host <;> simp only [hp]
    case rcptCode code message =>
      by_cases h1 : code = 250 ∨ code = 251
      · rw [if_pos h1]; exact h
      · rw [if_neg h1]
        by_cases h2 : code = 550 ∨ code = 553
        · rw [if_pos h2]
          exact Or.inr ⟨_, rfl, by decide⟩
        · rw [if_neg h2]
          by_cases h3 : code = 450 ∨ code = 451
          · rw [if_pos h3]
            exact ih _ (Or.inr ⟨_, rfl, by decide⟩)
          · rw [if_neg h3]
            by_cases h4 : code = 421
            · rw [if_pos h4]
              exact ih _ (Or.inr ⟨_, rfl, by decide⟩)
            · rw [if_neg h4]
              by_cases h5 : 500 ≤ code ∧ code < 600
              · rw [if_pos h5]
                exact Or.inr ⟨_, rfl, append_ne_empty_left _ _ (by decide)⟩
              · rw [if_neg h5]
                exact ih _ (Or.inr ⟨_, rfl,
                  append_ne_empty_left _ _ (append_ne_empty_left _ _
                    (append_ne_empty_left _ _ (by decide)))⟩)
    case mailFromRefused => exact ih st h
    case disconnected => exact ih st h
    case sessionTimeout => exact ih _ (Or.inr ⟨_, rfl, by decide⟩)
    case sessionError msg => exact ih _ (Or.inr ⟨_, rfl, append_ne_empty_left _ _ (by decide)⟩)
    case gaiError => exact ih st h
    case outerTimeout => exact ih st h
    case connError msg => exact ih _ (Or.inr ⟨_, rfl, append_ne_empty_left _ _ (by decide)⟩)

/-- C2: the reply-code classification of the recipient command — 250/251
accept and stop, 550/553 reject ("mailbox does not exist") and stop,
450/451 record the reason and continue, 421 continues, any other 5xx
rejects and stops, anything else is recorded as unexpected and continues;
only the first two mail-exchange hosts are ever attempted; and an
exhausted probe (not skipped, not accepted, not rejected) always carries
a non-empty error reason. -/
theorem C2_reply_code_classification :
    (∀ (probe : Str → HostOutcome) (host : Str) (rest : List Str) (st : SmtpResult)
        (code : ℕ) (message : String), probe host = HostOutcome.rcptCode code message →
      ((code = 250 ∨ code = 251) →
        smtpLoop probe (host :: rest) st = { st with accepted := true, mx_used := some host }) ∧
      ((code = 550 ∨ code = 553) →
        smtpLoop probe (host :: rest) st =
          { st with
              rejected := true
              error := some "Mailbox does not exist"
              mx_used := some host }) ∧
      ((code = 450 ∨ code = 451) →
        smtpLoop probe (host :: rest) st =
          smtpLoop probe rest
            { st with
                error := some "Temporarily unavailable (greylisted)"
                mx_used := some host }) ∧
      (code = 421 →
        smtpLoop probe (host :: rest) st =
          smtpLoop probe rest { st with error := some "Service unavailable" }) ∧
      (500 ≤ code → code < 600 → ¬ (code = 550 ∨ code = 553) →
        smtpLoop probe (host :: rest) st =
          { st with
              rejected := true
              error := some ("Permanent SMTP error: " ++ toString code)
              mx_used := some host }) ∧
      (¬ (code = 250 ∨ code = 251) → ¬ (code = 550 ∨ code = 553) →
        ¬ (code = 450 ∨ code = 451) → code ≠ 421 → ¬ (500 ≤ code ∧ code < 600) →
        smtpLoop probe (host :: rest) st =
          smtpLoop probe rest
            { st with
                error := some ("Unexpected response: " ++ toString code ++ " " ++ message) })) ∧
    (∀ (probe : Str → HostOutcome) (domain : Str) (mx_hosts : List Str),
        smtp_handshake probe domain mx_hosts = smtp_handshake probe domain (mx_hosts.take 2)) ∧
    (∀ (probe : Str → HostOutcome) (domain : Str) (mx_hosts : List Str),
        (smtp_handshake probe domain mx_hosts).skipped = false →
        (smtp_handshake probe domain mx_hosts).accepted = false →
        (smtp_handshake probe domain mx_hosts).rejected = false →
        ∃ e, (smtp_handshake probe domain mx_hosts).error = some e ∧ e ≠ "") := by
  refine ⟨?_, ?_, ?_⟩
  · intro probe host rest st code message hp
    refine ⟨?_, ?_, ?_, ?_, ?_, ?_⟩
    · intro h1
      simp only [smtpLoop, hp]
      rw [if_pos h1]
    · intro h2
      have h1 : ¬ (code = 250 ∨ code = 251) := by rcases h2 with h | h <;> omega
      simp only [smtpLoop, hp]
      rw [if_neg h1, if_pos h2]
    · intro h3
      have h1 : ¬ (code = 250 ∨ code = 251) := by rcases h3 with h | h <;> omega
      have h2 : ¬ (code = 550 ∨ code = 553) := by rcases h3 with h | h <;> omega
      simp only [smtpLoop, hp]
      rw [if_neg h1, if_neg h2, if_pos h3]
    · intro h4
      have h1 : ¬ (code = 250 ∨ code = 251) := by omega
      have h2 : ¬ (code = 550 ∨ code = 553) := by omega
      have h3 : ¬ (code = 450 ∨ code = 451) := by omega
      simp only [smtpLoop, hp]
      rw [if_neg h1, if_neg h2, if_neg h3, if_pos h4]
    · intro h5a h5b hnot
      have h1 : ¬ (code = 250 ∨ code = 251) := by omega
      have h3 : ¬ (code = 450 ∨ code = 451) := by omega
      have h4 : ¬ code = 421 := by omega
      simp only [smtpLoop, hp]
      rw [if_neg h1, if_neg hnot, if_neg h3, if_neg h4, if_pos ⟨h5a, h5b⟩]
    · intro h1 h2 h3 h4 h5
      simp only [smtpLoop, hp]
      rw [if_neg h1, if_neg h2, if_neg h3, if_neg h4, if_neg h5]
  · intro probe domain mx_hosts
    unfold smtp_handshake
    rw [List.take_take]
    norm_num
  · intro probe domain mx_hosts hsk hacc hrej
    unfold smtp_handshake at *
    by_cases hb : smtp_blocked_domains.any (fun blocked =>
        strContains (pyLower domain) blocked || ('.' :: blocked).isSuffixOf (pyLower domain)) = true
    · simp [hb] at hsk
    · by_cases ht : ((mx_hosts.take 2).any (fun mx_host =>
          transactional_patterns.any (fun pattern => strContains (pyLower mx_host) pattern))) = true
      · simp [hb, ht] at hsk
      · simp only [hb, ht, Bool.false_eq_true, if_false] at hacc hrej ⊢
        set after := smtpLoop probe (mx_hosts.take 2) initSmtpResult with hafter
        have hinv := smtpLoop_error_nonempty probe (mx_hosts.take 2) initSmtpResult (Or.inl rfl)
        rw [← hafter] at hinv
        by_cases hor : (after.accepted || after.rejected) = true
        · exfalso
          simp only [hor, if_true] at hacc hrej
          rcases Bool.or_eq_true_iff.mp hor with h | h
          · rw [hacc] at h; exact Bool.false_ne_true h
          · rw [hrej] at h; exact Bool.false_ne_true h
        · simp only [hor, Bool.false_eq_true, if_false] at hacc hrej ⊢
          by_cases he : after.error = none
          · rw [if_pos he]
            exact ⟨_, rfl, by decide⟩
          · rw [if_neg he]
            rcases hinv with h | h
            · exact absurd h he
            · exact h

/-- Witness for C2: a 550 reply at the first host, the two-host cap on a
three-host list, and a probe that exhausts all hosts by disconnecting. -/
theorem C2_witness :
    smtpLoop (fun _ => HostOutcome.rcptCode 550 "user unknown") ["m1.x.com".data] initSmtpResult
      = { initSmtpResult with
            rejected := true
            error := some "Mailbox does not exist"
            mx_used := some "m1.x.com".data } ∧
    smtp_handshake (fun _ => HostOutcome.disconnected) "x.com".data
        ["m1.x.com".data, "m2.x.com".data, "m3.x.com".data] =
      smtp_handshake (fun _ => HostOutcome.disconnected) "x.com".data
        ["m1.x.com".data, "m2.x.com".data] ∧
    ∃ e, (smtp_handshake (fun _ => HostOutcome.disconnected) "x.com".data
        ["m1.x.com".data, "m2.x.com".data, "m3.x.com".data]).error = some e ∧ e ≠ "" := by
  refine ⟨?_, ?_, ?_⟩
  · exact (C2_reply_code_classification.1 (fun _ => HostOutcome.rcptCode 550 "user unknown")
      "m1.x.com".data [] initSmtpResult 550 "user unknown" rfl).2.1 (Or.inl rfl)
  · exact C2_reply_code_classification.2.1 (fun _ => HostOutcome.disconnected) "x.com".data
      ["m1.x.com".data, "m2.x.com".data, "m3.x.com".data]
  · exact C2_reply_code_classification.2.2 (fun _ => HostOutcome.disconnected) "x.com".data
      ["m1.x.com".data, "m2.x.com".data, "m3.x.com".data] (by decide) (by decide) (by decide)

/-! ### The best-match selector's early-stop rule -/

/-- A non-empty candidate list always costs at least one probe. -/
theorem collectLoop_probes_pos (verify : Str → Option VerOutcome) (max_results : ℕ)
    (x : Str) (xs : List Str) (results : List Found) :
    1 ≤ (collectLoop verify max_results (x :: xs) results).2 := by
  rw [collectLoop]
  split
  · simp
  · rename_i v heq
    split
    · rename_i hst
      split
      · rename_i hstop
        simp
      · rename_i hstop
        simp
    · rename_i hst
      simp

set_option maxRecDepth 100000 in
/-- C3: probing stops exactly when the collected count has reached
`max_results` and the most recent collected result has confidence at
least 0.8 — when the condition fires the remaining candidates are
untouched and the probe count closes at one for that step, when it does
not fire the next candidate is probed too; and with `max_results = 1` a
first candidate verified at confidence 0.9 with a collectible status
means exactly one probe and exactly that one result. -/
theorem C3_early_stop_rule :
    (∀ (verify : Str → Option VerOutcome) (max_results : ℕ) (email : Str) (rest : List Str)
        (results : List Found) (v : VerOutcome), verify email = some v →
        (v.status = "valid" ∨ v.status = "catch-all" ∨ v.status = "likely_valid") →
        v.confidence ≥ 0.8 → max_results ≤ results.length + 1 →
        collectLoop verify max_results (email :: rest) results =
          (results ++
            [{ email := email, status := v.status, confidence := v.confidence, reason := v.reason }],
           1)) ∧
    (∀ (verify : Str → Option VerOutcome) (max_results : ℕ) (email e2 : Str) (rest : List Str)
        (results : List Found),
        (∀ v, verify email = some v →
          ¬ ((v.status = "valid" ∨ v.status = "catch-all" ∨ v.status = "likely_valid") ∧
            v.confidence ≥ 0.8 ∧ max_results ≤ results.length + 1)) →
        2 ≤ (collectLoop verify max_results (email :: e2 :: rest) results).2) ∧
    (∀ (verify : Str → Option VerOutcome) (reason : String),
        verify "a.b@x.com".data = some { status := "valid", confidence := 0.9, reason := reason } →
        find_best_emails_run "a".data "b".data "x.com".data 1 8 [] true verify =
          ([{ email := "a.b@x.com".data, status := "valid", confidence := 0.9, reason := reason }],
           1)) := by
  refine ⟨?_, ?_, ?_⟩
  · intro verify max_results email rest results v hv hst hconf hlen
    simp only [collectLoop, hv]
    rw [if_pos hst, if_pos ⟨hconf, by simpa using hlen⟩]
  · intro verify max_results email e2 rest results hno
    rw [collectLoop]
    split
    · rename_i heq
      have hp := collectLoop_probes_pos verify max_results e2 rest results
      simpa using hp
    · rename_i v heq
      split
      · rename_i hst
        split
        · rename_i hstop
          exfalso
          refine hno v heq ⟨hst, hstop.1, ?_⟩
          have := hstop.2
          simp only [List.length_append, List.length_cons, List.length_nil] at this
          omega
        · rename_i hstop
          have hp := collectLoop_probes_pos verify max_results e2 rest (results ++
            [{ email := email, status := v.status, confidence := v.confidence,
               reason := v.reason }])
          simpa using hp
      · rename_i hst
        have hp := collectLoop_probes_pos verify max_results e2 rest results
        simpa using hp
  · intro verify reason hv
    unfold find_best_emails_run
    rw [if_neg (by decide :
      ¬ generate_patterns "a".data "b".data "x.com".data [] true = [])]
    simp only []
    have hhead : ((buildOrdered
        (priority_patterns "a".data "b".data "x.com".data)
        (generate_patterns "a".data "b".data "x.com".data [] true)).take
          (max 1 (min 8 (buildOrdered (priority_patterns "a".data "b".data "x.com".data)
            (generate_patterns "a".data "b".data "x.com".data [] true)).length))).head?
        = some ("a.b@x.com".data) := by decide
    cases hc : (buildOrdered
        (priority_patterns "a".data "b".data "x.com".data)
        (generate_patterns "a".data "b".data "x.com".data [] true)).take
          (max 1 (min 8 (buildOrdered (priority_patterns "a".data "b".data "x.com".data)
            (generate_patterns "a".data "b".data "x.com".data [] true)).length)) with
    | nil => rw [hc] at hhead; exact absurd hhead (by simp)
    | cons hd tl =>
      rw [hc] at hhead
      simp only [List.head?_cons, Option.some.injEq] at hhead
      subst hhead
      have hcol : collectLoop verify 1 ("a.b@x.com".data :: tl) [] =
          ([{ email := "a.b@x.com".data, status := "valid", confidence := 0.9,
              reason := reason }], 1) := by
        simp only [collectLoop, hv]
        rw [if_pos (by simp), if_pos (by refine ⟨by norm_num, by simp⟩)]
        simp
      rw [hcol]
      simp [List.mergeSort]

/-- Witness for C3 at a concrete verifier stub. -/
theorem C3_witness :
    find_best_emails_run "a".data "b".data "x.com".data 1 8 [] true
        (fun e => if e = "a.b@x.com".data
          then some { status := "valid", confidence := 0.9, reason := "ok" } else none) =
      ([{ email := "a.b@x.com".data, status := "valid", confidence := 0.9, reason := "ok" }],
       1) :=
  C3_early_stop_rule.2.2
    (fun e => if e = "a.b@x.com".data
      then some { status := "valid", confidence := 0.9, reason := "ok" } else none)
    "ok" (by simp)

/-! ### The candidate prioritizer -/

/-- The priority shapes that occur in the candidate list, first
occurrences only, in priority order (the reference the first loop of the
reordering is compared against). -/
def prioSelect (patterns : List Str) : List Str → List Str → List Str
  | [], _ => []
  | p :: pr, seen =>
    if p ∈ patterns ∧ ¬ p ∈ seen then p :: prioSelect patterns pr (p :: seen)
    else prioSelect patterns pr seen

/-- Membership in the selection: present in the priority list, present
among the candidates, and not already seen. -/
theorem prioSelect_mem (patterns : List Str) :
    ∀ (pr seen : List Str) (x : Str),
      x ∈ prioSelect patterns pr seen ↔ (x ∈ pr ∧ x ∈ patterns ∧ ¬ x ∈ seen) := by
  intro pr
  induction pr with
  | nil => intro seen x; simp [prioSelect]
  | cons p pr ih =>
    intro seen x
    simp only [prioSelect]
    by_cases c : p ∈ patterns ∧ ¬ p ∈ seen
    · rw [if_pos c]
      constructor
      · intro hx
        rcases List.mem_cons.mp hx with h | h
        · subst h; exact ⟨List.mem_cons_self _ _, c.1, c.2⟩
        · rcases (ih (p :: seen) x).mp h with ⟨h1, h2, h3⟩
          exact ⟨List.mem_cons_of_mem _ h1, h2,
            fun hx3 => h3 (List.mem_cons_of_mem _ hx3)⟩
      · rintro ⟨h1, h2, h3⟩
        by_cases hxp : x = p
        · subst hxp; exact List.mem_cons_self _ _
        · refine List.mem_cons_of_mem _ ((ih (p :: seen) x).mpr ⟨?_, h2, ?_⟩)
          · rcases List.mem_cons.mp h1 with h | h
            · exact absurd h hxp
            · exact h
          · intro hx
            rcases List.mem_cons.mp hx with h | h
            · exact hxp h
            · exact h3 h
    · rw [if_neg c]
      rw [ih seen x]
      constructor
      · rintro ⟨h1, h2, h3⟩
        exact ⟨List.mem_cons_of_mem _ h1, h2, h3⟩
      · rintro ⟨h1, h2, h3⟩
        refine ⟨?_, h2, h3⟩
        rcases List.mem_cons.mp h1 with h | h
        · subst h
          exact absurd ⟨h2, h3⟩ c
        · exact h

/-- The selection is a sublist of the priority list: relative priority
order is preserved. -/
theorem prioSelect_sublist (patterns : List Str) :
    ∀ (pr seen : List Str), (prioSelect patterns pr seen).Sublist pr := by
  intro pr
  induction pr with
  | nil => intro seen; simp [prioSelect]
  | cons p pr ih =>
    intro seen
    simp only [prioSelect]
    by_cases c : p ∈ patterns ∧ ¬ p ∈ seen
    · rw [if_pos c]
      exact List.Sublist.cons₂ p (ih (p :: seen))
    · rw [if_neg c]
      exact List.Sublist.cons p (ih seen)

/-- The selection never repeats an address. -/
theorem prioSelect_nodup (patterns : List Str) :
    ∀ (pr seen : List Str), (prioSelect patterns pr seen).Nodup := by
  intro pr
  induction pr with
  | nil => intro seen; simp [prioSelect]
  | cons p pr ih =>
    intro seen
    simp only [prioSelect]
    by_cases c : p ∈ patterns ∧ ¬ p ∈ seen
    · rw [if_pos c]
      refine List.nodup_cons.mpr ⟨?_, ih (p :: seen)⟩
      intro hmem
      exact ((prioSelect_mem patterns pr (p :: seen) p).mp hmem).2.2
        (List.mem_cons_self _ _)
    · rw [if_neg c]
      exact ih seen

/-- Characterisation of the first reordering loop of
`find_best_emails`: starting from an `ordered`/`seen` pair whose
memberships agree, it appends exactly `prioSelect`, and the final `seen`
still mirrors the final `ordered`. -/
theorem buildOrdered_foldl_spec (patterns : List Str) :
    ∀ (pr : List Str) (ord seen : List Str), (∀ x, x ∈ seen ↔ x ∈ ord) →
      (pr.foldl (fun (acc : List Str × List Str) p =>
          if p ∈ patterns ∧ ¬ p ∈ acc.2 then (acc.1 ++ [p], p :: acc.2) else acc)
        (ord, seen)).1 = ord ++ prioSelect patterns pr seen ∧
      (∀ x, x ∈ (pr.foldl (fun (acc : List Str × List Str) p =>
          if p ∈ patterns ∧ ¬ p ∈ acc.2 then (acc.1 ++ [p], p :: acc.2) else acc)
        (ord, seen)).2 ↔ x ∈ (pr.foldl (fun (acc : List Str × List Str) p =>
          if p ∈ patterns ∧ ¬ p ∈ acc.2 then (acc.1 ++ [p], p :: acc.2) else acc)
        (ord, seen)).1) := by
  intro pr
  induction pr with
  | nil =>
    intro ord seen hinv
    simp only [List.foldl_nil, prioSelect, List.append_nil]
    exact ⟨trivial, hinv⟩
  | cons p pr ih =>
    intro ord seen hinv
    simp only [List.foldl_cons]
    by_cases c : p ∈ patterns ∧ ¬ p ∈ seen
    · have hc : (p ∈ patterns ∧ ¬ p ∈ (ord, seen).2) := c
      rw [if_pos hc]
      have hinv' : ∀ x, x ∈ p :: seen ↔ x ∈ ord ++ [p] := by
        intro x
        simp [hinv x, List.mem_cons, List.mem_append, or_comm]
      obtain ⟨h1, h2⟩ := ih (ord ++ [p]) (p :: seen) hinv'
      refine ⟨?_, h2⟩
      rw [h1]
      simp only [prioSelect]
      rw [if_pos c]
      simp
    · have hc : ¬ (p ∈ patterns ∧ ¬ p ∈ (ord, seen).2) := c
      rw [if_neg hc]
      obtain ⟨h1, h2⟩ := ih ord seen hinv
      refine ⟨?_, h2⟩
      rw [h1]
      simp only [prioSelect]
      rw [if_neg c]

/-- The reordered candidate list is exactly: the priority shapes present
among the candidates (first occurrences, in priority order), then every
other candidate in original order. -/
theorem buildOrdered_eq (priority patterns : List Str) :
    buildOrdered priority patterns =
      prioSelect patterns priority [] ++
        patterns.filter (fun p => ¬ p ∈ prioSelect patterns priority []) := by
  obtain ⟨h1, h2⟩ := buildOrdered_foldl_spec patterns priority [] [] (by simp)
  simp only [buildOrdered]
  rw [h1]
  simp only [List.nil_append]
  congr 1
  refine List.filter_congr ?_
  intro x hx
  have hm := h2 x
  rw [h1] at hm
  simp only [List.nil_append] at hm
  simp [hm]

/-- On duplicate-free candidates, reordering is a permutation. -/
theorem buildOrdered_perm (priority patterns : List Str) (h : patterns.Nodup) :
    (buildOrdered priority patterns).Perm patterns := by
  rw [buildOrdered_eq]
  have hFn : (prioSelect patterns priority []).Nodup := prioSelect_nodup patterns priority []
  have hsub : ∀ x ∈ prioSelect patterns priority [], x ∈ patterns :=
    fun x hx => ((prioSelect_mem patterns priority [] x).mp hx).2.1
  have hperm1 : (patterns.filter (fun p => p ∈ prioSelect patterns priority [])).Perm
      (prioSelect patterns priority []) := by
    rw [List.perm_ext_iff_of_nodup (h.filter _) hFn]
    intro a
    simp only [List.mem_filter, decide_eq_true_eq]
    exact ⟨fun hp => hp.2, fun hp => ⟨hsub a hp, hp⟩⟩
  have hneg : patterns.filter (fun p => ¬ p ∈ prioSelect patterns priority []) =
      patterns.filter (fun x => !(decide (x ∈ prioSelect patterns priority []))) :=
    List.filter_congr (fun x _ => by simp)
  refine List.Perm.trans
    (List.Perm.append_right (patterns.filter (fun p => ¬ p ∈ prioSelect patterns priority []))
      hperm1.symm) ?_
  rw [hneg]
  exact List.filter_append_perm _ patterns

/-- C4: the prioritized probing order is the present priority shapes up
front — a duplicate-free sublist of the priority list containing exactly
the shapes that occur among the candidates — followed by the remaining
candidates in original order; on duplicate-free candidates it is a
permutation, so `max_patterns` is clamped to `[1, number of candidates]`;
and the concrete four-candidate example keeps `a.b@x.com` first with the
rest in original relative order. -/
theorem C4_prioritized_order :
    (∀ (priority patterns : List Str),
        buildOrdered priority patterns =
          prioSelect patterns priority [] ++
            patterns.filter (fun p => ¬ p ∈ prioSelect patterns priority [])) ∧
    (∀ (priority patterns : List Str),
        (prioSelect patterns priority []).Sublist priority ∧
        (prioSelect patterns priority []).Nodup ∧
        (∀ x, x ∈ prioSelect patterns priority [] ↔ x ∈ priority ∧ x ∈ patterns)) ∧
    (∀ (priority patterns : List Str), patterns.Nodup →
        (buildOrdered priority patterns).Perm patterns) ∧
    (∀ (priority patterns : List Str) (max_patterns : ℕ),
        patterns.Nodup → patterns ≠ [] →
        1 ≤ max 1 (min max_patterns (buildOrdered priority patterns).length) ∧
        max 1 (min max_patterns (buildOrdered priority patterns).length) ≤ patterns.length) ∧
    buildOrdered (priority_patterns "a".data "b".data "x.com".data)
        ["a.b@x.com".data, "ab@x.com".data, "a@x.com".data, "a.b2@x.com".data] =
      ["a.b@x.com".data, "ab@x.com".data, "a@x.com".data, "a.b2@x.com".data] := by
  refine ⟨buildOrdered_eq, ?_, buildOrdered_perm, ?_, ?_⟩
  · intro priority patterns
    refine ⟨prioSelect_sublist patterns priority [], prioSelect_nodup patterns priority [], ?_⟩
    intro x
    rw [prioSelect_mem patterns priority [] x]
    simp
  · intro priority patterns max_patterns hnd hne
    have hlen : (buildOrdered priority patterns).length = patterns.length :=
      (buildOrdered_perm priority patterns hnd).length_eq
    have hpos : 1 ≤ patterns.length := by
      cases patterns with
      | nil => exact absurd rfl hne
      | cons a l => simp
    constructor
    · exact le_max_left 1 _
    · rw [hlen]
      exact max_le hpos (le_trans (min_le_right _ _) le_rfl)
  · decide

/-- Witness for C4's permutation part at a concrete candidate list. -/
theorem C4_witness :
    (buildOrdered (priority_patterns "a".data "b".data "x.com".data)
        ["a.b@x.com".data, "ab@x.com".data, "a@x.com".data, "a.b2@x.com".data]).Perm
      ["a.b@x.com".data, "ab@x.com".data, "a@x.com".data, "a.b2@x.com".data] :=
  C4_prioritized_order.2.2.1 (priority_patterns "a".data "b".data "x.com".data)
    ["a.b@x.com".data, "ab@x.com".data, "a@x.com".data, "a.b2@x.com".data] (by decide)

/-! ### The candidate generator: shape of the produced addresses -/

/-- A pattern fragment that contains no at-sign. -/
abbrev atFree (s : Str) : Prop := ¬ '@' ∈ s

/-- Concatenation preserves at-sign-freedom. -/
theorem atFree_append {a b : Str} (ha : atFree a) (hb : atFree b) : atFree (a ++ b) := by
  intro h
  rcases List.mem_append.mp h with h | h
  · exact ha h
  · exact hb h

/-- Taking a prefix preserves at-sign-freedom. -/
theorem atFree_take {s : Str} (h : atFree s) (n : ℕ) : atFree (s.take n) :=
  fun hm => h (List.take_subset n s hm)

/-- Dropping a prefix preserves at-sign-freedom. -/
theorem atFree_drop {s : Str} (h : atFree s) (n : ℕ) : atFree (s.drop n) :=
  fun hm => h (List.drop_subset n s hm)

/-- Reversal preserves at-sign-freedom, so `lastChar` does too. -/
theorem atFree_lastChar {s : Str} (h : atFree s) : atFree (lastChar s) := by
  intro hm
  exact h (List.mem_reverse.mp (List.take_subset 1 s.reverse hm))

/-- The invariant carried through the `add` calls: the collected
patterns are duplicate-free, the `seen` set mirrors them, and every
collected address ends in `'@'` followed by the (normalised) domain. -/
def GenOk (domain : Str) (st : GenState) : Prop :=
  st.patterns.Nodup ∧ (∀ x, x ∈ st.patterns ↔ x ∈ st.seen) ∧
    (∀ e ∈ st.patterns, List.IsSuffix ('@' :: domain) e)

/-- `add` preserves the invariant whenever the pattern it is given
contains no at-sign. -/
theorem addPattern_ok {domain : Str} {st : GenState} (p : Str)
    (hP : GenOk domain st) (hp : atFree p) : GenOk domain (addPattern domain st p) := by
  obtain ⟨hnd, hmem, hsuf⟩ := hP
  unfold addPattern
  by_cases hpe : p = []
  · rw [if_pos hpe]; exact ⟨hnd, hmem, hsuf⟩
  · rw [if_neg hpe]
    have hat : ¬ '@' ∈ p := hp
    simp only [hat, if_false, ite_false]
    by_cases hseen : p ++ ('@' :: domain) ∈ st.seen
    · rw [if_pos hseen]; exact ⟨hnd, hmem, hsuf⟩
    · rw [if_neg hseen]
      have hnotmem : ¬ p ++ ('@' :: domain) ∈ st.patterns :=
        fun hx => hseen ((hmem _).mp hx)
      refine ⟨?_, ?_, ?_⟩
      · simp only [List.nodup_append, List.nodup_cons, List.nodup_nil]
        exact ⟨hnd, by simp, by simpa [List.disjoint_singleton] using hnotmem⟩
      · intro x
        simp only [List.mem_append, List.mem_singleton, List.mem_cons]
        rw [hmem x]
        tauto
      · intro e he
        rcases List.mem_append.mp he with h | h
        · exact hsuf e h
        · rcases List.mem_singleton.mp h with rfl
          exact List.suffix_append p ('@' :: domain)

/-- `add` never shrinks the collected list. -/
theorem addPattern_length (domain : Str) (st : GenState) (p : Str) :
    st.patterns.length ≤ (addPattern domain st p).patterns.length := by
  unfold addPattern
  by_cases hpe : p = []
  · rw [if_pos hpe]
  · rw [if_neg hpe]
    by_cases hseen : (if '@' ∈ p then p else p ++ ('@' :: domain)) ∈ st.seen
    · rw [if_pos hseen]
    · rw [if_neg hseen]
      simp

/-- Folding a state-preserving step preserves any invariant that holds
for every element actually in the list. -/
theorem foldl_preserve {α : Type} (P : GenState → Prop) :
    ∀ (l : List α) (g : GenState → α → GenState),
      (∀ st a, a ∈ l → P st → P (g st a)) → ∀ st, P st → P (l.foldl g st) := by
  intro l
  induction l with
  | nil => intro g hg st h; exact h
  | cons a l ih =>
    intro g hg st h
    rw [List.foldl_cons]
    exact ih g (fun st' b hb => hg st' b (List.mem_cons_of_mem _ hb))
      (g st a) (hg st a (List.mem_cons_self _ _) h)

/-- A template chunk that cannot inject an at-sign: a clean literal or
any token other than `domain`. -/
def chunkClean : Chunk → Bool
  | .lit s => decide (¬ '@' ∈ s)
  | .tok t => decide (t ≠ Tok.domain)
  | .badTok => true

/-- One rendering step: a template renders by combining its head chunk
with the rendering of its tail. -/
theorem renderTemplate_cons (tk : TokenMap) (c : Chunk) (tpl : Template) :
    renderTemplate tk (c :: tpl) =
      match c, renderTemplate tk tpl with
      | _, none => none
      | .badTok, _ => none
      | .lit s, some r => some (s ++ r)
      | .tok t, some r => some (tokVal tk t ++ r) := rfl

/-- Rendering a template whose chunks are clean, over a token map whose
non-domain entries are at-sign-free, yields an at-sign-free pattern. -/
theorem renderTemplate_atFree {tk : TokenMap}
    (htk : ∀ t, t ≠ Tok.domain → atFree (tokVal tk t)) :
    ∀ (tpl : Template), (∀ c ∈ tpl, chunkClean c = true) →
      ∀ p, renderTemplate tk tpl = some p → atFree p := by
  intro tpl
  induction tpl with
  | nil =>
    intro hcl p hp
    simp only [renderTemplate, List.foldr_nil, Option.some.injEq] at hp
    subst hp
    intro h
    exact absurd h (List.not_mem_nil '@')
  | cons c tpl ih =>
    intro hcl p hp
    rw [renderTemplate_cons] at hp
    cases hr : renderTemplate tk tpl with
    | none =>
      rw [hr] at hp
      cases c <;> simp at hp
    | some r =>
      rw [hr] at hp
      have hrest : atFree r :=
        ih (fun d hd => hcl d (List.mem_cons_of_mem _ hd)) r hr
      cases c with
      | lit s =>
        simp only [Option.some.injEq] at hp
        subst hp
        have hs : ¬ '@' ∈ s := by
          have := hcl (.lit s) (List.mem_cons_self _ _)
          simpa [chunkClean] using this
        exact atFree_append hs hrest
      | tok t =>
        simp only [Option.some.injEq] at hp
        subst hp
        have ht : t ≠ Tok.domain := by
          have := hcl (.tok t) (List.mem_cons_self _ _)
          simpa [chunkClean] using this
        exact atFree_append (htk t ht) hrest
      | badTok => simp at hp

/-- Under the invariant, adding a non-empty pattern leaves a non-empty
collection: either the address was new (and is appended) or it was seen
before (and then it already sits in `patterns`). -/
theorem addPattern_nonempty {domain : Str} {st : GenState} (p : Str)
    (h : GenOk domain st) (hp : p ≠ []) : (addPattern domain st p).patterns ≠ [] := by
  unfold addPattern
  rw [if_neg hp]
  by_cases hseen : (if '@' ∈ p then p else p ++ ('@' :: domain)) ∈ st.seen
  · rw [if_pos hseen]
    have : (if '@' ∈ p then p else p ++ ('@' :: domain)) ∈ st.patterns :=
      (h.2.1 _).mpr hseen
    intro he
    rw [he] at this
    exact List.not_mem_nil _ this
  · rw [if_neg hseen]
    simp

/-- Adding never empties a non-empty collection. -/
theorem addPattern_keep_nonempty (domain : Str) {st : GenState} (p : Str)
    (h : st.patterns ≠ []) : (addPattern domain st p).patterns ≠ [] := by
  have hlen := addPattern_length domain st p
  intro he
  rw [he] at hlen
  simp only [List.length_nil, Nat.le_zero, List.length_eq_zero] at hlen
  exact h hlen

/-- The default-template sweep preserves the invariant when the token
map's non-domain entries are clean. -/
theorem gen_stage1_ok (dl : Str) (tk : TokenMap) (st : GenState)
    (htk : ∀ t, t ≠ Tok.domain → atFree (tokVal tk t)) (h : GenOk dl st) :
    GenOk dl (DEFAULT_PATTERN_TEMPLATES.foldl (fun st tpl =>
      match renderTemplate tk tpl with
      | none => st
      | some p => addPattern dl st p) st) := by
  refine foldl_preserve (GenOk dl) _ _ ?_ st h
  intro st' tpl htpl hP
  cases hr : renderTemplate tk tpl with
  | none => simpa [hr] using hP
  | some p =>
    simp only [hr]
    refine addPattern_ok p hP ?_
    refine renderTemplate_atFree htk tpl ?_ p hr
    intro c hc
    have hall : ∀ tpl ∈ DEFAULT_PATTERN_TEMPLATES, ∀ c ∈ tpl, chunkClean c = true := by decide
    exact hall tpl htpl c hc

/-- The numeric-suffix sweep preserves the invariant. -/
theorem gen_stage2_ok (dl first last : Str) (st : GenState)
    (haf : atFree first) (hal : atFree last) (h : GenOk dl st) :
    GenOk dl (([first ++ ['.'] ++ last, first ++ last, first ++ ['_'] ++ last,
        first ++ ['-'] ++ last, first ++ last.take 1, first.take 1 ++ last,
        last ++ first, last ++ ['.'] ++ first]).foldl (fun st token =>
          NUMERIC_SUFFIXES.foldl (fun st suffix => addPattern dl st (token ++ suffix)) st)
      st) := by
  refine foldl_preserve (GenOk dl) _ _ ?_ st h
  intro st' token htok hP
  have htokf : atFree token := by
    have hd : atFree ['.'] := by decide
    have hu : atFree ['_'] := by decide
    have hh : atFree ['-'] := by decide
    simp only [List.mem_cons, List.not_mem_nil, or_false] at htok
    rcases htok with rfl | rfl | rfl | rfl | rfl | rfl | rfl | rfl
    · exact atFree_append (atFree_append haf hd) hal
    · exact atFree_append haf hal
    · exact atFree_append (atFree_append haf hu) hal
    · exact atFree_append (atFree_append haf hh) hal
    · exact atFree_append haf (atFree_take hal 1)
    · exact atFree_append (atFree_take haf 1) hal
    · exact atFree_append hal haf
    · exact atFree_append (atFree_append hal hd) haf
  refine foldl_preserve (GenOk dl) _ _ ?_ st' hP
  intro st'' suffix hsuf hP'
  refine addPattern_ok _ hP' (atFree_append htokf ?_)
  have hs : ∀ s ∈ NUMERIC_SUFFIXES, atFree s := by decide
  exact hs suffix hsuf

/-- The separator sweep preserves the invariant. -/
theorem gen_stage3_ok (dl first last f0 l0 : Str) (st : GenState)
    (haf : atFree first) (hal : atFree last) (hf0 : atFree f0) (hl0 : atFree l0)
    (h : GenOk dl st) :
    GenOk dl (SEPARATORS.foldl (fun st sep =>
      let st := addPattern dl st (first ++ sep ++ last)
      let st := addPattern dl st (first.take 1 ++ sep ++ last)
      let st := addPattern dl st (first ++ sep ++ last.take 1)
      let st := addPattern dl st (first ++ sep ++ last ++ f0)
      addPattern dl st (first ++ sep ++ last ++ l0)) st) := by
  refine foldl_preserve (GenOk dl) _ _ ?_ st h
  intro st' sep hsep hP
  have hsf : atFree sep := by
    have hs : ∀ s ∈ SEPARATORS, atFree s := by decide
    exact hs sep hsep
  simp only []
  refine addPattern_ok _ (addPattern_ok _ (addPattern_ok _ (addPattern_ok _ (addPattern_ok _ hP
    (atFree_append (atFree_append haf hsf) hal))
    (atFree_append (atFree_append (atFree_take haf 1) hsf) hal))
    (atFree_append (atFree_append haf hsf) (atFree_take hal 1)))
    (atFree_append (atFree_append (atFree_append haf hsf) hal) hf0))
    (atFree_append (atFree_append (atFree_append haf hsf) hal) hl0)

set_option maxRecDepth 100000 in
/-- C5 (counterexample to the claim as stated): with first name "a@b"
(non-empty after normalisation), last name "c" and domain "x.com", the
generator returns the address "a@b.c", which does not end in
"@x.com" — a template value containing '@' is treated as a complete
address and the domain is not appended. -/
theorem C5_counterexample :
    ("a@b.c").data ∈ generate_patterns "a@b".data "c".data "x.com".data [] true ∧
    ¬ List.IsSuffix ('@' :: ("x.com").data) ("a@b.c").data := by
  constructor
  · decide
  · intro h
    have := h.length_le
    simp at this

/-- C5 (amended): for inputs whose normalised first/last names and
domain are non-empty and whose normalised names contain no '@', the
default invocation of `generate_patterns` returns a non-empty,
duplicate-free list in which every address ends in '@' followed by the
normalised domain. -/
theorem C5_generate_patterns_shape (first_name last_name domain : Str)
    (hf : pyStrip (pyLower first_name) ≠ [])
    (hl : pyStrip (pyLower last_name) ≠ [])
    (hd : pyRstripAtSign (pyStrip (pyLower domain)) ≠ [])
    (haf : atFree (pyStrip (pyLower first_name)))
    (hal : atFree (pyStrip (pyLower last_name))) :
    generate_patterns first_name last_name domain [] true ≠ [] ∧
    (generate_patterns first_name last_name domain [] true).Nodup ∧
    ∀ e ∈ generate_patterns first_name last_name domain [] true,
      List.IsSuffix ('@' :: pyRstripAtSign (pyStrip (pyLower domain))) e := by
  simp only [generate_patterns]
  rw [if_neg (by simp [hf, hl, hd])]
  simp only [List.foldl_nil]
  set first := pyStrip (pyLower first_name) with hfdef
  set last := pyStrip (pyLower last_name) with hldef
  set dl := pyRstripAtSign (pyStrip (pyLower domain)) with hddef
  have h0 : GenOk dl { patterns := [], seen := [] } :=
    ⟨List.nodup_nil, by simp, by simp⟩
  have htk : ∀ t, t ≠ Tok.domain → atFree (tokVal
      ({ first := first, last := last, f := first.take 1, l := last.take 1,
         fi := first.take 2, li := last.take 2, first3 := first.take 3,
         last3 := last.take 3, domain := dl, digits2 := "12".data } : TokenMap) t) := by
    intro t ht
    cases t with
    | first => exact haf
    | last => exact hal
    | f => exact atFree_take haf 1
    | l => exact atFree_take hal 1
    | fi => exact atFree_take haf 2
    | li => exact atFree_take hal 2
    | first3 => exact atFree_take haf 3
    | last3 => exact atFree_take hal 3
    | domain => exact absurd rfl ht
    | digits2 => exact (by decide : atFree ("12").data)
  have h1 := gen_stage1_ok dl
    { first := first, last := last, f := first.take 1, l := last.take 1,
      fi := first.take 2, li := last.take 2, first3 := first.take 3,
      last3 := last.take 3, domain := dl, digits2 := "12".data }
    { patterns := [], seen := [] } htk h0
  have h2 := gen_stage2_ok dl first last _ haf hal h1
  have h3 := gen_stage3_ok dl first last (first.take 1) (last.take 1) _
    haf hal (atFree_take haf 1) (atFree_take hal 1) h2
  have h4 := addPattern_ok (last ++ first ++ ['1']) h3
    (atFree_append (atFree_append hal haf) (by decide))
  have h5 := addPattern_ok (last ++ first ++ "123".data) h4
    (atFree_append (atFree_append hal haf) (by decide))
  have h6 := addPattern_ok (first.take 1 ++ last ++ last.take 1) h5
    (atFree_append (atFree_append (atFree_take haf 1) hal) (atFree_take hal 1))
  have hite1 : atFree (if first = [] then [] else lastChar first) := by
    by_cases hc : first = []
    · rw [if_pos hc]; decide
    · rw [if_neg hc]; exact atFree_lastChar haf
  have hite2 : atFree (if last = [] then [] else lastChar last) := by
    by_cases hc : last = []
    · rw [if_pos hc]; decide
    · rw [if_neg hc]; exact atFree_lastChar hal
  have h7 := addPattern_ok
    (first.take 1 ++ last ++ (if first = [] then [] else lastChar first)) h6
    (atFree_append (atFree_append (atFree_take haf 1) hal) hite1)
  have h8 := addPattern_ok
    (first ++ last.take 1 ++ (if last = [] then [] else lastChar last)) h7
    (atFree_append (atFree_append haf (atFree_take hal 1)) hite2)
  have h9 := addPattern_ok (first.take 1 ++ last ++ ['1']) h8
    (atFree_append (atFree_append (atFree_take haf 1) hal) (by decide))
  have hne9 := addPattern_nonempty (first.take 1 ++ last ++ ['1']) h8 (by simp)
  by_cases hc10 : 1 < first.length ∧ 1 < last.length
  · rw [if_pos hc10]
    have h10a := addPattern_ok (first.take 1 ++ (first.drop 1).take 1 ++ last) h9
      (atFree_append (atFree_append (atFree_take haf 1) (atFree_take (atFree_drop haf 1) 1)) hal)
    have h10b := addPattern_ok (first ++ last.take 2) h10a
      (atFree_append haf (atFree_take hal 2))
    have h10c := addPattern_ok (first.take 2 ++ last) h10b
      (atFree_append (atFree_take haf 2) hal)
    have hne10 := addPattern_keep_nonempty dl (first.take 2 ++ last)
      (addPattern_keep_nonempty dl (first ++ last.take 2)
        (addPattern_keep_nonempty dl (first.take 1 ++ (first.drop 1).take 1 ++ last) hne9))
    exact ⟨hne10, h10c.1, h10c.2.2⟩
  · rw [if_neg hc10]
    exact ⟨hne9, h9.1, h9.2.2⟩

/-- Witness for the amended C5 at the names "john"/"doe" and domain
"x.com". -/
theorem C5_witness :
    generate_patterns "john".data "doe".data "x.com".data [] true ≠ [] ∧
    (generate_patterns "john".data "doe".data "x.com".data [] true).Nodup ∧
    ∀ e ∈ generate_patterns "john".data "doe".data "x.com".data [] true,
      List.IsSuffix ('@' :: pyRstripAtSign (pyStrip (pyLower ("x.com").data))) e :=
  C5_generate_patterns_shape "john".data "doe".data "x.com".data
    (by decide) (by decide) (by decide) (by decide) (by decide)

set_option maxRecDepth 100000 in
/-- C6: the source normalises the domain with `rstrip("@")`, which
strips *trailing* at-signs and leaves a *leading* one in place: the
domain "@x.com" survives normalisation unchanged (while "x.com@" loses
its trailing at-sign), so for domain input "@x.com" the first generated
address is "a.b@@x.com", which contains a doubled at-sign — contradicting
the claimed leading-'@' stripping. -/
theorem C6_domain_rstrip_behaviour :
    pyRstripAtSign (pyStrip (pyLower ("@x.com").data)) = ("@x.com").data ∧
    pyRstripAtSign (pyStrip (pyLower ("x.com@").data)) = ("x.com").data ∧
    (generate_patterns "a".data "b".data "@x.com".data [] true).head?
      = some (("a.b@@x.com").data) ∧
    strContains ("a.b@@x.com").data ("@@").data = true := by
  refine ⟨by decide, by decide, by decide, by decide⟩

end EVF2

